import Mathlib

/-!
Verification development for the firehose-xrpl ledger-to-block pipeline.

This file shallowly embeds the Go source of the repository:
  * `rpc/client.go`    — `GetLedger`, `computeTxHash`, `decodeTransaction`
  * `rpc/fetcher.go`   — the poll loop of `Fetch`, the per-transaction
                         worker stage, block assembly, `convertBlock`
  * `decoder/decoder.go`, `decoder/mapper.go` — `MapTransactionToProto`,
                         `mapTxDetails`, `mapBatch`, `mapRawTransactions`
  * `types/transaction.go` — `TxTypeStringToProto`
  * `utils/convert.go`     — `ConvertTransactionResult`

Conventions of the embedding:
  * Go `[]byte` is `List Nat` with each element a byte value (< 256 where
    it matters; the encoders are totalised with `% 16` on nibbles, which
    agrees with Go on genuine bytes).
  * Go `map[string]interface{}` values produced by the external XRPL
    binary codec are modelled by the inductive `FlatVal` / association
    lists `FlatTx`; JSON numbers are modelled as naturals (the decoded
    fields of interest are non-negative integers; Go's `uint32(f)`
    conversion is modelled as `% 2^32`).
  * The external primitives `binarycodec.Decode`, `binarycodec.DecodeLedgerData`
    and `crypto/sha512.Sum512` are out-of-repo collaborators; they enter the
    model as function parameters (`codec`, `dld`, `sha`).
  * Fallible Go functions returning `(T, error)` become `Except String T`
    or `Option T`.
  * The worker pool of `Fetch` writes each result to the fixed slot of its
    input index and the collector reads the slots in order, so the parallel
    stage is observationally the sequential left-to-right pass modelled here;
    when several workers push errors, Go returns one of them — the model
    returns the first by index.
-/

deriving instance DecidableEq for Except

/-! ### Hex encoding / decoding (Go `encoding/hex`)

`hexDigitVal` models Go's `fromHexChar`; `hexDecode` models `hex.Decode`
(invalid characters and odd length fail); `hexEncodeToString` models
`hex.EncodeToString` with its lowercase `hextable`. -/

def hexDigitVal (c : Char) : Option Nat :=
  let n := c.toNat
  if 48 ≤ n ∧ n ≤ 57 then some (n - 48)
  else if 97 ≤ n ∧ n ≤ 102 then some (n - 97 + 10)
  else if 65 ≤ n ∧ n ≤ 70 then some (n - 65 + 10)
  else none

def hexDecodeChars : List Char → Option (List Nat)
  | [] => some []
  | [_] => none
  | c1 :: c2 :: rest => do
    let hi ← hexDigitVal c1
    let lo ← hexDigitVal c2
    let tail ← hexDecodeChars rest
    pure ((16 * hi + lo) :: tail)

def hexDecode (s : String) : Option (List Nat) :=
  hexDecodeChars s.data

/-- Character `v` of Go's lowercase `hextable` (`"0123456789abcdef"`). -/
def lowerHexChar (v : Nat) : Char :=
  Char.ofNat (if v % 16 < 10 then 48 + v % 16 else 87 + v % 16)

/-- One byte as two lowercase hex digits (`hextable[b>>4]`, `hextable[b&0x0f]`). -/
def hexEncodeByte (b : Nat) : List Char :=
  [lowerHexChar (b / 16 % 16), lowerHexChar (b % 16)]

def hexEncodeChars (bs : List Nat) : List Char :=
  bs.flatMap hexEncodeByte

def hexEncodeToString (bs : List Nat) : String :=
  ⟨hexEncodeChars bs⟩

/-! ### ASCII case conversion (`strings.ToUpper` on ASCII data) -/

def asciiUpperChar (c : Char) : Char :=
  if 97 ≤ c.toNat ∧ c.toNat ≤ 122 then Char.ofNat (c.toNat - 32) else c

def stringToUpper (s : String) : String :=
  ⟨s.data.map asciiUpperChar⟩

/-! ### Decimal parsing (`strconv.ParseUint` / `strconv.ParseInt`, base 10,
64-bit) -/

def decDigitsVal (cs : List Char) : Nat :=
  cs.foldl (fun acc c => acc * 10 + (c.toNat - 48)) 0

def parseUint64 (s : String) : Option Nat :=
  if s.data ≠ [] ∧ s.data.all Char.isDigit then
    let v := decDigitsVal s.data
    if v < 2 ^ 64 then some v else none
  else none

def parseInt64 (s : String) : Option Int :=
  match s.data with
  | '-' :: rest =>
    if rest ≠ [] ∧ rest.all Char.isDigit then
      let v := decDigitsVal rest
      if v ≤ 2 ^ 63 then some (-(v : Int)) else none
    else none
  | '+' :: rest =>
    if rest ≠ [] ∧ rest.all Char.isDigit then
      let v := decDigitsVal rest
      if v < 2 ^ 63 then some (v : Int) else none
    else none
  | cs =>
    if cs ≠ [] ∧ cs.all Char.isDigit then
      let v := decDigitsVal cs
      if v < 2 ^ 63 then some (v : Int) else none
    else none

/-- Go `[]byte(s)`: the UTF-8 bytes of the string.  The strings fed to this
conversion in the repository are ASCII hex strings, for which the UTF-8
bytes are exactly the code points. -/
def stringBytes (s : String) : List Nat :=
  s.data.map Char.toNat

/-! ### Result-code registry (`utils/convert.go`, `ConvertTransactionResult`)

The protobuf enum `pbxrpl.TransactionResult` and the Go `switch` over result
strings.  The `switch` cases are disjoint string literals, so it is modelled
as a first-match lookup in the table of its cases followed by the `default`
branch's prefix fallback. -/

inductive TransactionResult where
  | RESULT_UNKNOWN
  | TES_SUCCESS
  | TEC_CLAIMED
  | TEC_PATH_PARTIAL
  | TEC_UNFUNDED_ADD
  | TEC_UNFUNDED_OFFER
  | TEC_UNFUNDED_PAYMENT
  | TEC_FAILED_PROCESSING
  | TEC_DIR_FULL
  | TEC_INSUF_RESERVE_LINE
  | TEC_INSUF_RESERVE_OFFER
  | TEC_NO_DST
  | TEC_NO_DST_INSUF_XRP
  | TEC_OTHER
  | TEF_FAILURE
  | TEM_MALFORMED
  | TER_RETRY
  deriving DecidableEq, Repr

/-- The exact-match cases of the `switch` in `ConvertTransactionResult`,
in source order. -/
def resultExactTable : List (String × TransactionResult) :=
  [("tesSUCCESS", .TES_SUCCESS),
   ("tecCLAIMED", .TEC_CLAIMED),
   ("tecPATH_PARTIAL", .TEC_PATH_PARTIAL),
   ("tecUNFUNDED_ADD", .TEC_UNFUNDED_ADD),
   ("tecUNFUNDED_OFFER", .TEC_UNFUNDED_OFFER),
   ("tecUNFUNDED_PAYMENT", .TEC_UNFUNDED_PAYMENT),
   ("tecFAILED_PROCESSING", .TEC_FAILED_PROCESSING),
   ("tecDIR_FULL", .TEC_DIR_FULL),
   ("tecINSUF_RESERVE_LINE", .TEC_INSUF_RESERVE_LINE),
   ("tecINSUF_RESERVE_OFFER", .TEC_INSUF_RESERVE_OFFER),
   ("tecNO_DST", .TEC_NO_DST),
   ("tecNO_DST_INSUF_XRP", .TEC_NO_DST_INSUF_XRP)]

/-- `utils/convert.go` `ConvertTransactionResult`: exact matches first, then
the `default` branch checks `len(result) >= 3` and categorises by the
three-byte prefix `result[:3]` (the strings involved are ASCII, so Go's
byte slice `result[:3]` agrees with `String.take 3`). -/
def ConvertTransactionResult (result : String) : TransactionResult :=
  match resultExactTable.find? (fun p => p.1 == result) with
  | some p => p.2
  | none =>
    if 3 ≤ result.length then
      if result.data.take 3 = ['t', 'e', 'c'] then .TEC_OTHER
      else if result.data.take 3 = ['t', 'e', 'f'] then .TEF_FAILURE
      else if result.data.take 3 = ['t', 'e', 'm'] then .TEM_MALFORMED
      else if result.data.take 3 = ['t', 'e', 'r'] then .TER_RETRY
      else .RESULT_UNKNOWN
    else .RESULT_UNKNOWN

/-! ### Transaction-type registry (`types/transaction.go`, `TxTypeStringToProto`) -/

inductive TransactionType where
  | TX_UNKNOWN
  | TX_PAYMENT
  | TX_ESCROW_CREATE
  | TX_ESCROW_FINISH
  | TX_ACCOUNT_SET
  | TX_ESCROW_CANCEL
  | TX_SET_REGULAR_KEY
  | TX_OFFER_CREATE
  | TX_OFFER_CANCEL
  | TX_TICKET_CREATE
  | TX_SIGNER_LIST_SET
  | TX_PAYMENT_CHANNEL_CREATE
  | TX_PAYMENT_CHANNEL_FUND
  | TX_PAYMENT_CHANNEL_CLAIM
  | TX_CHECK_CREATE
  | TX_CHECK_CASH
  | TX_CHECK_CANCEL
  | TX_DEPOSIT_PREAUTH
  | TX_TRUST_SET
  | TX_ACCOUNT_DELETE
  | TX_NFT_MINT
  | TX_NFT_BURN
  | TX_NFT_CREATE_OFFER
  | TX_NFT_CANCEL_OFFER
  | TX_NFT_ACCEPT_OFFER
  | TX_CLAWBACK
  | TX_AMM_CREATE
  | TX_AMM_DEPOSIT
  | TX_AMM_WITHDRAW
  | TX_AMM_VOTE
  | TX_AMM_BID
  | TX_AMM_DELETE
  | TX_XCHAIN_CREATE_BRIDGE
  | TX_XCHAIN_CREATE_CLAIM_ID
  | TX_XCHAIN_COMMIT
  | TX_XCHAIN_CLAIM
  | TX_XCHAIN_ACCOUNT_CREATE_COMMIT
  | TX_XCHAIN_ADD_CLAIM_ATTESTATION
  | TX_XCHAIN_ADD_ACCOUNT_CREATE_ATTESTATION
  | TX_XCHAIN_MODIFY_BRIDGE
  | TX_DID_SET
  | TX_DID_DELETE
  | TX_ORACLE_SET
  | TX_ORACLE_DELETE
  deriving DecidableEq, Repr

/-- The cases of the `switch` in `TxTypeStringToProto`, in source order. -/
def txTypeNameTable : List (String × TransactionType) :=
  [("Payment", .TX_PAYMENT),
   ("EscrowCreate", .TX_ESCROW_CREATE),
   ("EscrowFinish", .TX_ESCROW_FINISH),
   ("AccountSet", .TX_ACCOUNT_SET),
   ("EscrowCancel", .TX_ESCROW_CANCEL),
   ("SetRegularKey", .TX_SET_REGULAR_KEY),
   ("OfferCreate", .TX_OFFER_CREATE),
   ("OfferCancel", .TX_OFFER_CANCEL),
   ("TicketCreate", .TX_TICKET_CREATE),
   ("SignerListSet", .TX_SIGNER_LIST_SET),
   ("PaymentChannelCreate", .TX_PAYMENT_CHANNEL_CREATE),
   ("PaymentChannelFund", .TX_PAYMENT_CHANNEL_FUND),
   ("PaymentChannelClaim", .TX_PAYMENT_CHANNEL_CLAIM),
   ("CheckCreate", .TX_CHECK_CREATE),
   ("CheckCash", .TX_CHECK_CASH),
   ("CheckCancel", .TX_CHECK_CANCEL),
   ("DepositPreauth", .TX_DEPOSIT_PREAUTH),
   ("TrustSet", .TX_TRUST_SET),
   ("AccountDelete", .TX_ACCOUNT_DELETE),
   ("NFTokenMint", .TX_NFT_MINT),
   ("NFTokenBurn", .TX_NFT_BURN),
   ("NFTokenCreateOffer", .TX_NFT_CREATE_OFFER),
   ("NFTokenCancelOffer", .TX_NFT_CANCEL_OFFER),
   ("NFTokenAcceptOffer", .TX_NFT_ACCEPT_OFFER),
   ("Clawback", .TX_CLAWBACK),
   ("AMMCreate", .TX_AMM_CREATE),
   ("AMMDeposit", .TX_AMM_DEPOSIT),
   ("AMMWithdraw", .TX_AMM_WITHDRAW),
   ("AMMVote", .TX_AMM_VOTE),
   ("AMMBid", .TX_AMM_BID),
   ("AMMDelete", .TX_AMM_DELETE),
   ("XChainCreateBridge", .TX_XCHAIN_CREATE_BRIDGE),
   ("XChainCreateClaimID", .TX_XCHAIN_CREATE_CLAIM_ID),
   ("XChainCommit", .TX_XCHAIN_COMMIT),
   ("XChainClaim", .TX_XCHAIN_CLAIM),
   ("XChainAccountCreateCommit", .TX_XCHAIN_ACCOUNT_CREATE_COMMIT),
   ("XChainAddClaimAttestation", .TX_XCHAIN_ADD_CLAIM_ATTESTATION),
   ("XChainAddAccountCreateAttestation", .TX_XCHAIN_ADD_ACCOUNT_CREATE_ATTESTATION),
   ("XChainModifyBridge", .TX_XCHAIN_MODIFY_BRIDGE),
   ("DIDSet", .TX_DID_SET),
   ("DIDDelete", .TX_DID_DELETE),
   ("OracleSet", .TX_ORACLE_SET),
   ("OracleDelete", .TX_ORACLE_DELETE)]

/-- The registered transaction-type names of the registry (`switch` case
labels of `TxTypeStringToProto`). -/
def registeredTypeNames : List String :=
  txTypeNameTable.map Prod.fst

/-- `types/transaction.go` `TxTypeStringToProto`: `switch` over disjoint
string literals, `default` returning `TX_UNKNOWN`. -/
def TxTypeStringToProto (txType : String) : TransactionType :=
  match txTypeNameTable.find? (fun p => p.1 == txType) with
  | some p => p.2
  | none => .TX_UNKNOWN

/-! ### Decoded attribute mappings (`xrpltx.FlatTransaction`)

The external binary codec returns `map[string]interface{}`; modelled as an
association list of `FlatVal` (first entry wins, as Go map keys are
unique). -/

inductive FlatVal where
  | str (s : String)
  | num (n : Nat)
  | arr (xs : List FlatVal)
  | obj (fields : List (String × FlatVal))

abbrev FlatTx := List (String × FlatVal)

def flookup (ftx : FlatTx) (k : String) : Option FlatVal :=
  (ftx.find? (fun p => p.1 == k)).map Prod.snd

/-- Go `m[k].(string)`: present and a string. -/
def lookupStr (ftx : FlatTx) (k : String) : Option String :=
  match flookup ftx k with
  | some (.str s) => some s
  | _ => none

/-- Go `m[k].(float64)`: present and a number (JSON numbers modelled as
naturals). -/
def lookupNum (ftx : FlatTx) (k : String) : Option Nat :=
  match flookup ftx k with
  | some (.num n) => some n
  | _ => none

/-- Go `m[k].([]interface{})`. -/
def lookupArr (ftx : FlatTx) (k : String) : Option (List FlatVal) :=
  match flookup ftx k with
  | some (.arr xs) => some xs
  | _ => none

/-- Go's `uint32(f)` conversion applied to a decoded JSON number. -/
def toUint32 (n : Nat) : Nat := n % 2 ^ 32

/-! ### Mapper records (`decoder/mapper.go`) -/

structure Memo where
  memoData : String := ""
  memoFormat : String := ""
  memoType : String := ""
  deriving DecidableEq, Repr

structure Signer where
  account : String := ""
  txnSignature : String := ""
  signingPubKey : String := ""
  deriving DecidableEq, Repr

/-- `pbxrpl.RawTransaction`: a single raw-transaction entry of a Batch body.
The field is a byte slice in the protobuf. -/
structure RawTransaction where
  rawTransaction : List Nat := []
  deriving DecidableEq, Repr

structure BatchSigner where
  account : String := ""
  signingPubKey : String := ""
  txnSignature : String := ""
  signers : List Signer := []
  deriving DecidableEq, Repr

structure BatchBody where
  rawTransactions : List RawTransaction := []
  batchSigners : List BatchSigner := []
  deriving DecidableEq, Repr

/-- `mapMemosFromFlat`: keep the elements that are objects wrapping a
`"Memo"` object, in order. -/
def mapMemosFromFlat (memosRaw : List FlatVal) : List Memo :=
  memosRaw.filterMap fun memoRaw =>
    match memoRaw with
    | .obj memoMap =>
      match flookup memoMap "Memo" with
      | some (.obj memo) =>
        some { memoData := (lookupStr memo "MemoData").getD ""
               memoFormat := (lookupStr memo "MemoFormat").getD ""
               memoType := (lookupStr memo "MemoType").getD "" }
      | _ => none
    | _ => none

/-- `mapSignersFromFlat`: keep the elements that are objects wrapping a
`"Signer"` object, in order. -/
def mapSignersFromFlat (signersRaw : List FlatVal) : List Signer :=
  signersRaw.filterMap fun signerRaw =>
    match signerRaw with
    | .obj signerMap =>
      match flookup signerMap "Signer" with
      | some (.obj signer) =>
        some { account := (lookupStr signer "Account").getD ""
               txnSignature := (lookupStr signer "TxnSignature").getD ""
               signingPubKey := (lookupStr signer "SigningPubKey").getD "" }
      | _ => none
    | _ => none

/-- `mapRawTransactions` (`decoder/mapper.go:1457`): for each object element
with a string field `"RawTransaction"`, the code stores `[]byte(rawTx)` —
the bytes of the hex STRING itself, not its hex-decoded bytes (despite the
comment "Convert hex string to bytes" in the source). -/
def mapRawTransactions (txsRaw : List FlatVal) : List RawTransaction :=
  txsRaw.filterMap fun txRaw =>
    match txRaw with
    | .obj txMap =>
      some { rawTransaction :=
               match lookupStr txMap "RawTransaction" with
               | some rawTx => stringBytes rawTx
               | none => [] }
    | _ => none

def mapBatchSigners (signersRaw : List FlatVal) : List BatchSigner :=
  signersRaw.filterMap fun signerRaw =>
    match signerRaw with
    | .obj signerMap =>
      some { account := (lookupStr signerMap "Account").getD ""
             signingPubKey := (lookupStr signerMap "SigningPubKey").getD ""
             txnSignature := (lookupStr signerMap "TxnSignature").getD ""
             signers := match lookupArr signerMap "Signers" with
               | some xs => mapSignersFromFlat xs
               | none => [] }
    | _ => none

/-- `mapBatch`. -/
def mapBatch (flat : FlatTx) : BatchBody :=
  { rawTransactions := match lookupArr flat "RawTransactions" with
      | some xs => mapRawTransactions xs
      | none => []
    batchSigners := match lookupArr flat "BatchSigners" with
      | some xs => mapBatchSigners xs
      | none => [] }

/-- The `oneof tx_details` variant attached by `mapTxDetails`.  The Batch
variant carries its mapped body (needed by the raw-transaction claims); the
other variants are abstracted to their dispatch name — their record
contents are produced by per-type mappers whose internals none of the
claims depend on. -/
inductive TxDetails where
  | batch (b : BatchBody)
  | variantFor (typeName : String)
  deriving DecidableEq, Repr

/-- The case labels of the `switch` in `mapTxDetails` other than `"Batch"`,
in source order. -/
def detailCaseNamesNoBatch : List String :=
  ["Payment", "OfferCreate", "OfferCancel", "TrustSet", "AccountSet",
   "AccountDelete", "SetRegularKey", "SignerListSet", "EscrowCreate",
   "EscrowFinish", "EscrowCancel", "PaymentChannelCreate",
   "PaymentChannelFund", "PaymentChannelClaim", "CheckCreate", "CheckCash",
   "CheckCancel", "DepositPreauth", "TicketCreate", "NFTokenMint",
   "NFTokenBurn", "NFTokenCreateOffer", "NFTokenCancelOffer",
   "NFTokenAcceptOffer", "Clawback", "AMMCreate", "AMMDeposit",
   "AMMWithdraw", "AMMVote", "AMMBid", "AMMDelete", "AMMClawback",
   "DIDSet", "DIDDelete", "OracleSet", "OracleDelete",
   "MPTokenIssuanceCreate", "MPTokenIssuanceDestroy", "MPTokenIssuanceSet",
   "MPTokenAuthorize", "CredentialCreate", "CredentialAccept",
   "CredentialDelete", "PermissionedDomainSet", "PermissionedDomainDelete",
   "DelegateSet", "EnableAmendment", "SetFee", "UNLModify"]

/-- Every case label of the `switch` in `mapTxDetails`. -/
def detailCaseNames : List String :=
  "Batch" :: detailCaseNamesNoBatch

/-- `mapTxDetails`: the `switch` over `txType`; a matching case attaches a
body variant, the (implicit) default leaves `tx.TxDetails` nil.  The cases
are disjoint string literals, so the dispatch is modelled by membership in
the case-label list, with the Batch case kept concrete. -/
def mapTxDetails (flatTx : FlatTx) (txType : String) : Option TxDetails :=
  if txType = "Batch" then some (.batch (mapBatch flatTx))
  else if txType ∈ detailCaseNamesNoBatch then some (.variantFor txType)
  else none

/-- `pbxrpl.Transaction` (the fields populated by
`Mapper.MapTransactionToProto`). -/
structure Transaction where
  hash : List Nat := []
  result : String := ""
  index : Nat := 0
  txBlob : List Nat := []
  metaBlob : List Nat := []
  txType : String := ""
  account : String := ""
  fee : Nat := 0
  sequence : Nat := 0
  flags : Nat := 0
  accountTxnId : String := ""
  delegate : String := ""
  lastLedgerSequence : Nat := 0
  memos : List Memo := []
  networkId : Nat := 0
  signers : List Signer := []
  sourceTag : Nat := 0
  signingPubKey : String := ""
  ticketSequence : Nat := 0
  txnSignature : String := ""
  txDetails : Option TxDetails := none
  deriving DecidableEq, Repr

/-- `Mapper.MapTransactionToProto` (`decoder/mapper.go:142`): fails only
when `TransactionType` is absent (or not a string); otherwise populates the
common fields, the optional common fields, and dispatches `mapTxDetails`. -/
def mapperMapTransactionToProto (flatTx : FlatTx) (txBlob metaBlob txHash : List Nat)
    (txIndex : Nat) (result : String) : Except String Transaction :=
  match lookupStr flatTx "TransactionType" with
  | none => .error "missing TransactionType in transaction"
  | some txType =>
    .ok
      { hash := txHash
        result := result
        index := txIndex
        txBlob := txBlob
        metaBlob := metaBlob
        txType := txType
        account := (lookupStr flatTx "Account").getD ""
        fee := match lookupStr flatTx "Fee" with
          | some feeStr => (parseUint64 feeStr).getD 0
          | none => 0
        sequence := match lookupNum flatTx "Sequence" with
          | some n => toUint32 n
          | none => 0
        flags := match lookupNum flatTx "Flags" with
          | some n => toUint32 n
          | none => 0
        accountTxnId := (lookupStr flatTx "AccountTxnID").getD ""
        delegate := (lookupStr flatTx "Delegate").getD ""
        lastLedgerSequence := match lookupNum flatTx "LastLedgerSequence" with
          | some n => toUint32 n
          | none => 0
        memos := match lookupArr flatTx "Memos" with
          | some xs => mapMemosFromFlat xs
          | none => []
        networkId := match lookupNum flatTx "NetworkID" with
          | some n => toUint32 n
          | none => 0
        signers := match lookupArr flatTx "Signers" with
          | some xs => mapSignersFromFlat xs
          | none => []
        sourceTag := match lookupNum flatTx "SourceTag" with
          | some n => toUint32 n
          | none => 0
        signingPubKey := (lookupStr flatTx "SigningPubKey").getD ""
        ticketSequence := match lookupNum flatTx "TicketSequence" with
          | some n => toUint32 n
          | none => 0
        txnSignature := (lookupStr flatTx "TxnSignature").getD ""
        txDetails := mapTxDetails flatTx txType }

/-! ### Decoder wrapper (`decoder/decoder.go`)

`binarycodec.Decode` (the external codec, hex string → attribute mapping)
is the parameter `codec`.  `DecodeTransactionFromBytes` and
`DecodeMetadataFromBytes` both hex-encode the raw bytes and call the same
codec. -/

def DecodeTransactionFromBytes (codec : String → Option FlatTx) (txBlob : List Nat) :
    Option FlatTx :=
  codec (hexEncodeToString txBlob)

/-- `Decoder.MapTransactionToProto` (`decoder/decoder.go:91`), the entry
point used by the fetcher: decode the transaction blob, decode the metadata
blob, pull `TransactionResult` out of the metadata, then run the mapper. -/
def decoderMapTransactionToProto (codec : String → Option FlatTx)
    (txBlob metaBlob txHash : List Nat) (txIndex : Nat) : Except String Transaction :=
  match DecodeTransactionFromBytes codec txBlob with
  | none => .error "decoding transaction"
  | some flatTx =>
    match DecodeTransactionFromBytes codec metaBlob with
    | none => .error "decoding metadata"
    | some meta =>
      mapperMapTransactionToProto flatTx txBlob metaBlob txHash txIndex
        ((lookupStr meta "TransactionResult").getD "")

/-! ### RPC client (`rpc/client.go`) -/

/-- `txnHashPrefix`: the TXN hash prefix `0x54584E00`. -/
def txnHashPfx : List Nat := [84, 88, 78, 0]

/-- `Client.computeTxHash` (`rpc/client.go:188`): hex-decode the blob (on
failure return `""`), prepend the TXN prefix, apply SHA-512 (the external
`crypto/sha512.Sum512`, parameter `sha`), keep the first 32 bytes, and
return the uppercase hex string. -/
def computeTxHash (sha : List Nat → List Nat) (txBlobHex : String) : String :=
  match hexDecode txBlobHex with
  | none => ""
  | some txBytes =>
    stringToUpper (hexEncodeToString ((sha (txnHashPfx ++ txBytes)).take 32))

/-- `types.LedgerTransaction` — the fields filled in binary mode plus the
fields extracted by `Client.decodeTransaction`. -/
structure LedgerTransaction where
  hash : String := ""
  txBlob : String := ""
  meta : String := ""
  account : String := ""
  transactionType : String := ""
  fee : String := ""
  sequence : Nat := 0
  destination : String := ""
  deriving DecidableEq, Repr

/-- `Client.decodeTransaction` (`rpc/client.go:204`): best-effort extraction
of display fields from the decoded blob; decode failure leaves the record
unchanged.  `Fee` accepts a string or a number (`%.0f` of an integral
float64 is its decimal digits, modelled by `toString`). -/
def decodeTransaction (codec : String → Option FlatTx)
    (ltx : LedgerTransaction) (txBlobHex : String) : LedgerTransaction :=
  match codec txBlobHex with
  | none => ltx
  | some decoded =>
    { ltx with
      transactionType := (lookupStr decoded "TransactionType").getD ltx.transactionType
      account := (lookupStr decoded "Account").getD ltx.account
      fee := match flookup decoded "Fee" with
        | some (.str s) => s
        | some (.num n) => toString n
        | _ => ltx.fee
      sequence := match lookupNum decoded "Sequence" with
        | some n => toUint32 n
        | none => ltx.sequence
      destination := (lookupStr decoded "Destination").getD ltx.destination }

/-- One element of the `transactions` array of a binary-mode `ledger`
response.  The Go code type-asserts the element to a JSON object and reads
the keys `"tx_blob"` and `"meta"`; a `"hash"` key may be present on the
wire but no code path reads it. -/
inductive TxElem where
  | nonObj
  | objElem (hash txBlob meta : Option String)
  deriving DecidableEq, Repr

/-- The per-element conversion loop body of `Client.GetLedger`
(`rpc/client.go:154-174`): always appends one `LedgerTransaction`; when the
element has a `tx_blob` string the blob is copied, the hash is recomputed
from the blob via `computeTxHash`, and the display fields are decoded; when
the element has a `meta` string it is copied.  The supplied `hash` field is
never read. -/
def convertLedgerTx (sha : List Nat → List Nat) (codec : String → Option FlatTx)
    (e : TxElem) : LedgerTransaction :=
  match e with
  | .nonObj => {}
  | .objElem _hash txBlob meta =>
    let ltx : LedgerTransaction := {}
    let ltx := match txBlob with
      | some blob =>
        decodeTransaction codec
          { ltx with txBlob := blob, hash := computeTxHash sha blob } blob
      | none => ltx
    match meta with
    | some m2 => { ltx with meta := m2 }
    | none => ltx

/-- The header fields returned by the external
`binarycodec.DecodeLedgerData` (parameter `dld`). -/
structure HeaderData where
  parentHash : String := ""
  closeTime : Nat := 0
  parentCloseTime : Nat := 0
  accountHash : String := ""
  transactionHash : String := ""
  totalCoins : String := ""
  closeTimeResolution : Nat := 0
  closeFlags : Nat := 0
  deriving DecidableEq, Repr

/-- `types.Ledger` (the fields `GetLedger` populates). -/
structure Ledger where
  ledgerIndex : Nat := 0
  ledgerHash : String := ""
  closed : Bool := false
  parentHash : String := ""
  closeTime : Nat := 0
  parentCloseTime : Nat := 0
  accountHash : String := ""
  transactionHash : String := ""
  totalCoins : String := ""
  closeTimeResolution : Nat := 0
  closeFlags : Nat := 0
  transactions : List LedgerTransaction := []
  deriving DecidableEq, Repr

/-- `rawLedgerResponse.Result`: the parsed JSON envelope of the `ledger`
call. -/
structure RawLedgerResult where
  ledgerData : String := ""
  closed : Bool := false
  transactions : Option (List TxElem) := none
  ledgerHash : String := ""
  ledgerIndex : Nat := 0
  validated : Bool := false
  status : String := ""
  error : String := ""

/-- `types.LedgerResult`. -/
structure LedgerResult where
  ledger : Ledger := {}
  ledgerHash : String := ""
  ledgerIndex : Nat := 0
  validated : Bool := false
  status : String := ""
  deriving DecidableEq, Repr

/-- `Client.GetLedger` (`rpc/client.go:83`), from the parsed envelope on:
fail on a non-empty `result.error`; fail when `validated` is false; decode
the header blob best-effort (failure only logs); convert each transaction
element in order. -/
def GetLedger (sha : List Nat → List Nat) (codec : String → Option FlatTx)
    (dld : String → Option HeaderData) (raw : RawLedgerResult) :
    Except String LedgerResult :=
  if raw.error ≠ "" then
    .error ("RPC error: " ++ raw.error)
  else if raw.validated = false then
    .error "ledger not yet validated"
  else
    let ledgerData : Ledger :=
      { ledgerIndex := raw.ledgerIndex
        ledgerHash := raw.ledgerHash
        closed := raw.closed }
    let ledgerData :=
      if raw.ledgerData ≠ "" then
        match dld raw.ledgerData with
        | none => ledgerData
        | some hd =>
          { ledgerData with
            parentHash := hd.parentHash
            closeTime := hd.closeTime
            parentCloseTime := hd.parentCloseTime
            accountHash := hd.accountHash
            transactionHash := hd.transactionHash
            totalCoins := hd.totalCoins
            closeTimeResolution := hd.closeTimeResolution
            closeFlags := hd.closeFlags }
      else ledgerData
    let ledgerData :=
      match raw.transactions with
      | none => ledgerData
      | some elems =>
        { ledgerData with transactions := elems.map (convertLedgerTx sha codec) }
    .ok
      { ledger := ledgerData
        ledgerHash := raw.ledgerHash
        ledgerIndex := raw.ledgerIndex
        validated := raw.validated
        status := "success" }

/-! ### Fetcher (`rpc/fetcher.go`) -/

/-- Phase 1 of `Fetcher.Fetch` (`rpc/fetcher.go:151-168`): the poll loop.
`w` is `f.lastBlockInfo.blockNum`; `obs` is the sequence of
`latestLedger.LedgerIndex` values the upstream returns on successive
successful `GetLatestLedger` calls (an RPC error aborts the fetch and is not
part of the loop).  The loop body is a plain assignment
`f.lastBlockInfo.blockNum = latestLedger.LedgerIndex`.  The model consumes a
finite observation list; `none` means the observations ran out with the
loop still spinning. -/
def pollLoop (requestBlockNum : Nat) : Nat → List Nat → Option Nat
  | w, [] => if requestBlockNum ≤ w then some w else none
  | w, latest :: rest =>
    if requestBlockNum ≤ w then some w
    else pollLoop requestBlockNum latest rest

/-- The successive values taken by `f.lastBlockInfo.blockNum` during the
poll loop (one entry per executed iteration). -/
def pollWatermarks (requestBlockNum : Nat) : Nat → List Nat → List Nat
  | _, [] => []
  | w, latest :: rest =>
    if requestBlockNum ≤ w then []
    else latest :: pollWatermarks requestBlockNum latest rest

/-- `Fetcher.IsBlockAvailable` (`rpc/fetcher.go:382`). -/
def IsBlockAvailable (lastBlockNum blockNum : Nat) : Bool :=
  blockNum ≤ lastBlockNum

/-- The worker body of `Fetcher.Fetch` for one transaction
(`rpc/fetcher.go:201-236`): hex-decode `hash`, `tx_blob` and `meta` — any
failure is pushed to the error channel (fatal for the ledger, modelled as
`.error`); then map to protobuf — a mapping failure only logs and skips
this transaction (modelled as `.ok none`); success writes the transaction
to its fixed slot (`.ok (some t)`). -/
def processLedgerTx (codec : String → Option FlatTx) (i : Nat)
    (tx : LedgerTransaction) : Except String (Option Transaction) :=
  match hexDecode tx.hash with
  | none => .error ("decoding tx hash at index " ++ toString i)
  | some txHash =>
    match hexDecode tx.txBlob with
    | none => .error ("decoding tx blob at index " ++ toString i)
    | some txBlob =>
      match hexDecode tx.meta with
      | none => .error ("decoding meta blob at index " ++ toString i)
      | some metaBlob =>
        match decoderMapTransactionToProto codec txBlob metaBlob txHash i with
        | .error _ => .ok none
        | .ok t => .ok (some t)

/-- The per-transaction stage of `Fetch` from slot `start` on: process each
transaction at its positional index, return the first error if any worker
failed, otherwise the non-nil slots in order (`rpc/fetcher.go:241-268`). -/
def buildTxAux (codec : String → Option FlatTx) (start : Nat) :
    List LedgerTransaction → Except String (List Transaction)
  | [] => .ok []
  | tx :: rest =>
    match processLedgerTx codec start tx with
    | .error e => .error e
    | .ok o =>
      match buildTxAux codec (start + 1) rest with
      | .error e => .error e
      | .ok l =>
        .ok (match o with
             | some t => t :: l
             | none => l)

/-- Steps 3 of `Fetcher.Fetch`: the whole per-transaction stage (worker
pool plus the nil-filtering collector). -/
def buildTransactions (codec : String → Option FlatTx)
    (txs : List LedgerTransaction) : Except String (List Transaction) :=
  buildTxAux codec 0 txs

/-- The outcome of the mapping pipeline for one transaction whose three hex
fields decode: `some` the mapped transaction, or `none` when the mapper
rejects it (the drop case). -/
def mapOutcome (codec : String → Option FlatTx) (i : Nat)
    (tx : LedgerTransaction) : Option Transaction :=
  match hexDecode tx.hash, hexDecode tx.txBlob, hexDecode tx.meta with
  | some h, some b, some m => (decoderMapTransactionToProto codec b m h i).toOption
  | _, _, _ => none

/-- The transactions a block is expected to carry from slot `start` on:
every transaction that maps successfully, in positional order, with the
mapping failures dropped. -/
def expectedTxs (codec : String → Option FlatTx) (start : Nat) :
    List LedgerTransaction → List Transaction
  | [] => []
  | tx :: rest =>
    match mapOutcome codec start tx with
    | some t => t :: expectedTxs codec (start + 1) rest
    | none => expectedTxs codec (start + 1) rest

/-- `pbxrpl.Header` (the fields `Fetch` populates). -/
structure Header where
  parentHash : List Nat := []
  totalDrops : Int := 0
  accountHash : List Nat := []
  transactionHash : List Nat := []
  closeTimeResolution : Nat := 0
  closeFlags : Nat := 0
  deriving DecidableEq, Repr

/-- `pbxrpl.Block`. -/
structure Block where
  number : Nat := 0
  hash : List Nat := []
  header : Header := {}
  version : Nat := 1
  transactions : List Transaction := []
  closeTimeSec : Int := 0
  deriving DecidableEq, Repr

/-- `xrplEpochToTime` (`rpc/fetcher.go:442`): `int64(xrplTime) +
946684800`, as Unix seconds.  The `uint64 → int64` conversion wraps at
`2^63`. -/
def xrplEpochToUnix (xrplTime : Nat) : Int :=
  (if xrplTime < 2 ^ 63 then (xrplTime : Int) else (xrplTime : Int) - 2 ^ 64)
    + 946684800

/-- `pbbstream.Block`, the stream-record envelope.  `payload` is the
`anypb`-wrapped XRPL block. -/
structure BstreamBlock where
  number : Nat := 0
  id : String := ""
  parentId : String := ""
  timestampSec : Int := 0
  libNum : Nat := 0
  parentNum : Nat := 0
  payload : Block := {}
  deriving DecidableEq, Repr

/-- `convertBlock` (`rpc/fetcher.go:448`): block IDs via
`hex.EncodeToString` (lowercase); `LibNum` and `ParentNum` are
`xrplBlk.Number - 1` on `uint64` (wrapping subtraction, modelled mod
`2^64`).  `anypb.New` cannot fail on a well-formed message, so the model is
total. -/
def convertBlock (xrplBlk : Block) : BstreamBlock :=
  { number := xrplBlk.number
    id := hexEncodeToString xrplBlk.hash
    parentId := hexEncodeToString xrplBlk.header.parentHash
    timestampSec := xrplBlk.closeTimeSec
    libNum := (xrplBlk.number + (2 ^ 64 - 1)) % 2 ^ 64
    parentNum := (xrplBlk.number + (2 ^ 64 - 1)) % 2 ^ 64
    payload := xrplBlk }

/-- Phase 2 of `Fetcher.Fetch` (`rpc/fetcher.go:170-369`): `GetLedger`,
the per-transaction stage, hex-decoding the four header hashes
(`ledger_hash`/`parent_hash` fatal, the other two degrade to empty),
parsing `total_coins` (failure degrades to 0), converting the close time,
assembling the `pbxrpl.Block` and wrapping it with `convertBlock`.
The four header hashes are decoded by four goroutines; when both fatal
decodes fail Go keeps whichever error was recorded first — the model keeps
the ledger-hash error, which is one of the possible outcomes. -/
def Fetch (sha : List Nat → List Nat) (codec : String → Option FlatTx)
    (dld : String → Option HeaderData) (raw : RawLedgerResult) :
    Except String BstreamBlock :=
  match GetLedger sha codec dld raw with
  | .error e => .error ("fetching ledger: " ++ e)
  | .ok ledgerResult =>
    let ledger := ledgerResult.ledger
    match buildTransactions codec ledger.transactions with
    | .error e => .error e
    | .ok transactions =>
      match hexDecode ledger.ledgerHash with
      | none => .error "decoding ledger hash"
      | some ledgerHash =>
        match hexDecode ledger.parentHash with
        | none => .error "decoding parent hash"
        | some parentHash =>
          let accountHash := (hexDecode ledger.accountHash).getD []
          let transactionHash := (hexDecode ledger.transactionHash).getD []
          let totalDrops := (parseInt64 ledger.totalCoins).getD 0
          let xrplBlock : Block :=
            { number := ledger.ledgerIndex
              hash := ledgerHash
              header :=
                { parentHash := parentHash
                  totalDrops := totalDrops
                  accountHash := accountHash
                  transactionHash := transactionHash
                  closeTimeResolution := ledger.closeTimeResolution
                  closeFlags := ledger.closeFlags }
              version := 1
              transactions := transactions
              closeTimeSec := xrplEpochToUnix ledger.closeTime }
          .ok (convertBlock xrplBlock)

/-! ### Concrete instances of the external collaborators, used by the
closed-form theorems below -/

/-- A concrete stand-in for the external binary codec: decodes the blob
`0x01` to a Payment attribute mapping, `0x02` to a metadata mapping, and
`0x03` to an attribute mapping without a `TransactionType` (as the codec
produces for, e.g., a metadata blob handed to the transaction decoder). -/
def demoCodec : String → Option FlatTx := fun s =>
  if s = "01" then
    some [("TransactionType", FlatVal.str "Payment"), ("Account", FlatVal.str "rAAA")]
  else if s = "02" then some [("TransactionResult", FlatVal.str "tesSUCCESS")]
  else if s = "03" then some []
  else none

/-- A concrete stand-in for SHA-512: a fixed 64-byte digest. -/
def demoSha : List Nat → List Nat := fun _ => List.range 64

/-- A concrete stand-in for `binarycodec.DecodeLedgerData`. -/
def demoDld : String → Option HeaderData := fun s =>
  if s = "LD" then some { parentHash := "BB", totalCoins := "100", closeTime := 3 }
  else none

/-! ### Helper lemmas -/

/-- The lowercase hex alphabet (Go's `hextable` constant). -/
def hexLowerChars : List Char :=
  "0123456789abcdef".data

theorem lowerHexChar_mem (v : Nat) : lowerHexChar v ∈ hexLowerChars := by
  have hlt : v % 16 < 16 := Nat.mod_lt _ (by norm_num)
  have hall : ∀ w < 16,
      Char.ofNat (if w < 10 then 48 + w else 87 + w) ∈ hexLowerChars := by decide
  simpa [lowerHexChar] using hall (v % 16) hlt

theorem hexEncodeChars_mem (bs : List Nat) :
    ∀ c ∈ hexEncodeChars bs, c ∈ hexLowerChars := by
  induction bs with
  | nil => intro c hc; simp [hexEncodeChars] at hc
  | cons b rest ih =>
    intro c hc
    simp only [hexEncodeChars, List.flatMap_cons, List.mem_append] at hc
    rcases hc with hc | hc
    · simp only [hexEncodeByte, List.mem_cons, List.not_mem_nil, or_false] at hc
      rcases hc with h1 | h1 <;> (subst h1; exact lowerHexChar_mem _)
    · exact ih c (by simpa [hexEncodeChars] using hc)

theorem hexDigitVal_upper_lower :
    ∀ v < 16, hexDigitVal (asciiUpperChar (lowerHexChar v)) = some v := by decide

/-- Decoding the uppercased lowercase hex encoding of genuine bytes
recovers the bytes. -/
theorem hexDecode_upper_encode (bs : List Nat) (h : ∀ b ∈ bs, b < 256) :
    hexDecode (stringToUpper (hexEncodeToString bs)) = some bs := by
  suffices hs : ∀ l : List Nat, (∀ b ∈ l, b < 256) →
      hexDecodeChars ((hexEncodeChars l).map asciiUpperChar) = some l by
    simpa [hexDecode, stringToUpper, hexEncodeToString] using hs bs h
  intro l
  induction l with
  | nil => intro _; simp [hexEncodeChars, hexDecodeChars]
  | cons b rest ih =>
    intro hl
    have hb : b < 256 := hl b (List.mem_cons_self b rest)
    have hrest := ih (fun x hx => hl x (List.mem_cons_of_mem _ hx))
    have hhi : b / 16 % 16 < 16 := Nat.mod_lt _ (by norm_num)
    have hlo : b % 16 < 16 := Nat.mod_lt _ (by norm_num)
    have e1 := hexDigitVal_upper_lower _ hhi
    have e2 := hexDigitVal_upper_lower _ hlo
    have hval : 16 * (b / 16 % 16) + b % 16 = b := by
      have hdivlt : b / 16 < 16 := Nat.div_lt_of_lt_mul (by omega)
      have hdiv : b / 16 % 16 = b / 16 := Nat.mod_eq_of_lt hdivlt
      rw [hdiv]; omega
    have hgoal : (hexEncodeChars (b :: rest)).map asciiUpperChar
        = asciiUpperChar (lowerHexChar (b / 16 % 16)) ::
            asciiUpperChar (lowerHexChar (b % 16)) ::
            (hexEncodeChars rest).map asciiUpperChar := by
      simp [hexEncodeChars, hexEncodeByte]
    rw [hgoal]
    simp only [hexDecodeChars]
    rw [e1, e2, hrest]
    simp [hval]

/-- A first-match table lookup misses when the key is not among the table's
keys. -/
theorem table_find_none {α : Type} (table : List (String × α)) (t : String)
    (h : t ∉ table.map Prod.fst) :
    table.find? (fun p => p.1 == t) = none := by
  rw [List.find?_eq_none]
  intro p hp
  simp only [beq_iff_eq]
  intro hEq
  exact h (List.mem_map.mpr ⟨p, hp, hEq⟩)

/-! ### Claim C3 — the poll-loop watermark -/

/-- The claim's property, on a watermark trace: every iteration's watermark
is at least the previous one (starting from the initial watermark). -/
def watermarkNeverDecreases (w0 : Nat) : List Nat → Bool
  | [] => true
  | w :: rest => decide (w0 ≤ w) && watermarkNeverDecreases w rest

/-- C3 (counterexample): the poll loop's watermark is NOT monotone across
iterations.  Starting from watermark 5 with requested sequence 10, upstream
observations 7, 6, 12 drive the watermark through 7, 6, 12 — the plain
assignment `f.lastBlockInfo.blockNum = latestLedger.LedgerIndex` overwrites
7 with the lower observation 6, so the per-iteration "after ≥ before"
comparison fails. -/
theorem C3_counterexample :
    pollWatermarks 10 5 [7, 6, 12] = [7, 6, 12] ∧
    watermarkNeverDecreases 5 (pollWatermarks 10 5 [7, 6, 12]) = false := by decide

/-- C3 (amended): the watermark is overwritten with each observed
`ledger_index`, so it can decrease inside the loop; but whenever the poll
loop exits normally, the final watermark is at least the requested
sequence. -/
theorem C3_loop_exit (req w w2 : Nat) (obs : List Nat)
    (h : pollLoop req w obs = some w2) : req ≤ w2 := by
  induction obs generalizing w with
  | nil =>
    by_cases hle : req ≤ w
    · simp [pollLoop, hle] at h
      omega
    · simp [pollLoop, hle] at h
  | cons o rest ih =>
    by_cases hle : req ≤ w
    · simp [pollLoop, hle] at h
      omega
    · simp [pollLoop, hle] at h
      exact ih _ h

/-- C3 witness: a concrete poll-loop run exiting with watermark 12 for
requested sequence 10. -/
theorem C3_loop_exit_witness :
    pollLoop 10 5 [12] = some 12 ∧ 10 ≤ 12 :=
  ⟨by decide, C3_loop_exit 10 5 12 [12] (by decide)⟩

/-! ### Claim C5 — block identifier case -/

/-- C5 (counterexample): for the 32-byte ledger hash `0xABAB…AB`, the
emitted envelope id is the LOWERCASE hex string, not the uppercase one the
claim states (`hex.EncodeToString` uses the lowercase `hextable`). -/
theorem C5_counterexample :
    (convertBlock { hash := List.replicate 32 171 }).id =
      hexEncodeToString (List.replicate 32 171) ∧
    (convertBlock { hash := List.replicate 32 171 }).id ≠
      stringToUpper (hexEncodeToString (List.replicate 32 171)) := by decide

/-- C5 (amended): the envelope's `id` is the lowercase hexadecimal
encoding of the ledger-hash bytes and `parent_id` the lowercase hex of the
parent-hash bytes; every character of either id is a lowercase hex digit
(the wire case cannot leak through, because the ids are re-encoded from the
decoded bytes). -/
theorem C5_lowercase_ids (blk : Block) :
    (convertBlock blk).id = hexEncodeToString blk.hash ∧
    (convertBlock blk).parentId = hexEncodeToString blk.header.parentHash ∧
    (∀ c ∈ (convertBlock blk).id.data, c ∈ hexLowerChars) ∧
    (∀ c ∈ (convertBlock blk).parentId.data, c ∈ hexLowerChars) := by
  refine ⟨rfl, rfl, ?_, ?_⟩ <;>
    exact fun c hc => hexEncodeChars_mem _ c hc

/-- C5 witness: the amended statement evaluated on a one-byte hash. -/
theorem C5_lowercase_ids_witness :
    (convertBlock { hash := [171], header := { parentHash := [18] } }).id =
      hexEncodeToString [171] ∧
    'a' ∈ hexLowerChars :=
  ⟨(C5_lowercase_ids { hash := [171], header := { parentHash := [18] } }).1,
   (C5_lowercase_ids { hash := [171], header := { parentHash := [18] } }).2.2.1 'a'
     (by decide)⟩

/-! ### Claim C9 — hex fields decoded to raw bytes -/

/-- C9: `mapRawTransactions` stores `[]byte(rawTx)` — the ASCII bytes of
the hex string itself (here `"0A"` becomes `[0x30, 0x41]`), not the decoded
bytes `[0x0A]`, contradicting both the specification (raw bytes) and the
source's own comment ("Convert hex string to bytes").  The third conjunct
shows the value flowing into the emitted Batch body variant. -/
theorem C9_raw_transaction_kept_as_hex :
    mapRawTransactions [FlatVal.obj [("RawTransaction", FlatVal.str "0A")]] =
      [{ rawTransaction := [48, 65] }] ∧
    hexDecode "0A" = some [10] ∧
    mapTxDetails
        [("TransactionType", FlatVal.str "Batch"),
         ("RawTransactions",
          FlatVal.arr [FlatVal.obj [("RawTransaction", FlatVal.str "0A")]])]
        "Batch" =
      some (TxDetails.batch
        { rawTransactions := [{ rawTransaction := [48, 65] }], batchSigners := [] }) ∧
    ([48, 65] : List Nat) ≠ [10] := by decide

/-! ### Claim C10 — `GetLedger` transaction conversion -/

/-- C10 (counterexample): an element that carries a `meta` string but no
`tx_blob` is appended with its `meta` COPIED, not empty — refuting the
claim's "empty hash, blob, and meta fields". -/
theorem C10_counterexample :
    (convertLedgerTx demoSha demoCodec (.objElem none none (some "ABCD"))).meta = "ABCD" ∧
    ("ABCD" : String) ≠ "" := by decide

/-- C10 (amended): the conversion never reads a supplied `hash` field (the
output is invariant under changing it); when a `tx_blob` is present the
stored hash is always `computeTxHash` of the blob; when no `tx_blob` is
present the element is still converted, with empty hash and blob, and with
`meta` copied from the element when present (empty otherwise). -/
theorem C10_hash_recomputed (sha : List Nat → List Nat)
    (codec : String → Option FlatTx) (h1 h2 : Option String)
    (b m : Option String) (blob : String) :
    convertLedgerTx sha codec (.objElem h1 b m) =
      convertLedgerTx sha codec (.objElem h2 b m) ∧
    (convertLedgerTx sha codec (.objElem h1 (some blob) m)).hash =
      computeTxHash sha blob ∧
    (convertLedgerTx sha codec (.objElem h1 none m)).hash = "" ∧
    (convertLedgerTx sha codec (.objElem h1 none m)).txBlob = "" ∧
    (convertLedgerTx sha codec (.objElem h1 none m)).meta = m.getD "" := by
  refine ⟨rfl, ?_, ?_, ?_, ?_⟩ <;>
    cases m <;>
      cases hcodec : codec blob <;>
        simp [convertLedgerTx, decodeTransaction, hcodec]

/-- C10 witness: the amended statement at a concrete element. -/
theorem C10_hash_recomputed_witness :
    convertLedgerTx demoSha demoCodec (.objElem (some "FF") (some "01") (some "02")) =
      convertLedgerTx demoSha demoCodec (.objElem none (some "01") (some "02")) ∧
    (convertLedgerTx demoSha demoCodec
        (.objElem (some "FF") (some "01") (some "02"))).hash =
      computeTxHash demoSha "01" :=
  ⟨(C10_hash_recomputed demoSha demoCodec (some "FF") none (some "01") (some "02") "01").1,
   (C10_hash_recomputed demoSha demoCodec (some "FF") none (some "01") (some "02") "01").2.1⟩

/-! ### Claim C8 — result-code registry -/

/-- The well-known exact result strings of the registry. -/
def wellKnownResultStrings : List String :=
  resultExactTable.map Prod.fst

/-- C8 (counterexample): `"abc"` has three characters yet maps to
`RESULT_UNKNOWN` (it is no exact match and its prefix is none of
tec/tef/tem/ter), so "UNKNOWN exactly when the string is shorter than three
characters" is false. -/
theorem C8_counterexample :
    ConvertTransactionResult "abc" = .RESULT_UNKNOWN ∧ 3 ≤ "abc".length := by decide

/-- C8 (amended): each well-known exact string maps to its specific enum
value; any other string of length at least three maps by prefix to
TEC_OTHER / TEF_FAILURE / TEM_MALFORMED / TER_RETRY; and RESULT_UNKNOWN is
returned exactly when the string is no exact match and either is shorter
than three characters or has a prefix outside those four categories. -/
theorem C8_result_registry (s : String) :
    (∀ p ∈ resultExactTable, ConvertTransactionResult p.1 = p.2) ∧
    (s ∉ wellKnownResultStrings → 3 ≤ s.length →
      (s.data.take 3 = ['t', 'e', 'c'] → ConvertTransactionResult s = .TEC_OTHER) ∧
      (s.data.take 3 = ['t', 'e', 'f'] → ConvertTransactionResult s = .TEF_FAILURE) ∧
      (s.data.take 3 = ['t', 'e', 'm'] → ConvertTransactionResult s = .TEM_MALFORMED) ∧
      (s.data.take 3 = ['t', 'e', 'r'] → ConvertTransactionResult s = .TER_RETRY)) ∧
    (ConvertTransactionResult s = .RESULT_UNKNOWN ↔
      s ∉ wellKnownResultStrings ∧
        (s.length < 3 ∨
          (s.data.take 3 ≠ ['t', 'e', 'c'] ∧ s.data.take 3 ≠ ['t', 'e', 'f'] ∧
           s.data.take 3 ≠ ['t', 'e', 'm'] ∧ s.data.take 3 ≠ ['t', 'e', 'r']))) := by
  refine ⟨by decide, ?_, ?_⟩
  · intro hnot hlen
    have hfind : resultExactTable.find? (fun p => p.1 == s) = none :=
      table_find_none _ _ hnot
    refine ⟨?_, ?_, ?_, ?_⟩ <;> intro htake <;>
      simp [ConvertTransactionResult, hfind, hlen, htake]
  · by_cases hmem : s ∈ wellKnownResultStrings
    · obtain ⟨p, hp, hps⟩ := List.mem_map.mp hmem
      have hsome : (resultExactTable.find? (fun q => q.1 == s)).isSome :=
        List.find?_isSome.mpr ⟨p, hp, by simp [hps]⟩
      obtain ⟨q, hq⟩ := Option.isSome_iff_exists.mp hsome
      have hq2 : q.2 ≠ TransactionResult.RESULT_UNKNOWN :=
        (by decide : ∀ r ∈ resultExactTable, r.2 ≠ TransactionResult.RESULT_UNKNOWN)
          q (List.mem_of_find?_eq_some hq)
      constructor
      · intro hres
        rw [ConvertTransactionResult, hq] at hres
        exact absurd hres hq2
      · intro hrhs
        exact absurd hmem hrhs.1
    · have hfind : resultExactTable.find? (fun p => p.1 == s) = none :=
        table_find_none _ _ hmem
      by_cases hlen : 3 ≤ s.length
      · by_cases h1 : s.data.take 3 = ['t', 'e', 'c']
        · simp [ConvertTransactionResult, hfind, hlen, h1, hmem]
        · by_cases h2 : s.data.take 3 = ['t', 'e', 'f']
          · simp [ConvertTransactionResult, hfind, hlen, h1, h2, hmem]
          · by_cases h3 : s.data.take 3 = ['t', 'e', 'm']
            · simp [ConvertTransactionResult, hfind, hlen, h1, h2, h3, hmem]
            · by_cases h4 : s.data.take 3 = ['t', 'e', 'r']
              · simp [ConvertTransactionResult, hfind, hlen, h1, h2, h3, h4, hmem]
              · simp [ConvertTransactionResult, hfind, hlen, h1, h2, h3, h4, hmem]
      · have hlt : s.length < 3 := by omega
        simp [ConvertTransactionResult, hfind, hlen, hmem, hlt]

/-- C8 witness: the amended statement evaluated on `"terNO_AUTH"`. -/
theorem C8_result_registry_witness :
    ConvertTransactionResult "terNO_AUTH" = TransactionResult.TER_RETRY :=
  ((C8_result_registry "terNO_AUTH").2.1 (by decide) (by decide)).2.2.2 (by decide)

/-! ### Claim C7 — unknown transaction types -/

/-- C7 (counterexample): `"Batch"` is NOT one of the registered type names
(`TxTypeStringToProto` returns `TX_UNKNOWN` for it), yet the mapper
attaches a body variant to a Batch transaction — refuting "no body variant
set" for unregistered names.  (The registry's case list and the body
dispatch's case list disagree.) -/
theorem C7_counterexample :
    TxTypeStringToProto "Batch" = .TX_UNKNOWN ∧
    (mapperMapTransactionToProto [("TransactionType", FlatVal.str "Batch")]
        [] [] [] 0 "tesSUCCESS").map (fun t => t.txDetails) =
      .ok (some (TxDetails.batch {})) := by decide

/-- C7 (amended): a transaction whose decoded `TransactionType` is neither
a registered type name nor one of the body-dispatch case names never fails:
the mapper succeeds, the registry returns the UNKNOWN tag, no body variant
is set, and the common fields are populated.  (Names that are dispatch
cases but unregistered — e.g. `"Batch"` — still get a body variant.) -/
theorem C7_unknown_type (flatTx : FlatTx) (txBlob metaBlob txHash : List Nat)
    (txIndex : Nat) (result : String) (t : String)
    (htype : lookupStr flatTx "TransactionType" = some t)
    (hreg : t ∉ registeredTypeNames) (hdetail : t ∉ detailCaseNames) :
    TxTypeStringToProto t = .TX_UNKNOWN ∧
    ∃ tx, mapperMapTransactionToProto flatTx txBlob metaBlob txHash txIndex result =
        .ok tx ∧
      tx.txDetails = none ∧ tx.txType = t ∧ tx.hash = txHash ∧
      tx.index = txIndex ∧ tx.result = result ∧ tx.txBlob = txBlob ∧
      tx.metaBlob = metaBlob ∧
      tx.account = (lookupStr flatTx "Account").getD "" := by
  have hB : t ≠ "Batch" := by
    intro hEq
    exact hdetail (hEq ▸ List.mem_cons_self _ _)
  have hNB : t ∉ detailCaseNamesNoBatch := fun hmem =>
    hdetail (List.mem_cons_of_mem _ hmem)
  constructor
  · unfold TxTypeStringToProto
    rw [table_find_none _ _ (by simpa [registeredTypeNames] using hreg)]
  · cases hm : mapperMapTransactionToProto flatTx txBlob metaBlob txHash txIndex result with
    | error e => simp [mapperMapTransactionToProto, htype] at hm
    | ok tx =>
      simp [mapperMapTransactionToProto, htype] at hm
      subst hm
      refine ⟨_, rfl, ?_, rfl, rfl, rfl, rfl, rfl, rfl, rfl⟩
      simp [mapTxDetails, hB, hNB]

/-- A transaction mapping with an unregistered, undispatched type name. -/
def demoFutureFlat : FlatTx :=
  [("TransactionType", FlatVal.str "FutureTx"), ("Account", FlatVal.str "rAAA")]

/-- C7 witness: the amended statement applied at `"FutureTx"`. -/
theorem C7_unknown_type_witness :
    TxTypeStringToProto "FutureTx" = TransactionType.TX_UNKNOWN :=
  (C7_unknown_type demoFutureFlat [1] [2] [3] 0 "tesSUCCESS" "FutureTx"
    (by decide) (by decide) (by decide)).1

/-! ### Claim C4 — blocks only from validated ledger responses -/

/-- C4: `GetLedger` fails whenever `result.error` is non-empty, and fails
whenever `validated` is false; every successful `GetLedger` result — and
hence every block `Fetch` emits — comes from a response with
`validated = true`. -/
theorem C4_validated_only (sha : List Nat → List Nat) (codec : String → Option FlatTx)
    (dld : String → Option HeaderData) (raw : RawLedgerResult) :
    (raw.error ≠ "" → ∃ e, GetLedger sha codec dld raw = .error e) ∧
    (raw.validated = false → ∃ e, GetLedger sha codec dld raw = .error e) ∧
    (∀ lr, GetLedger sha codec dld raw = .ok lr →
      raw.validated = true ∧ lr.validated = true) ∧
    (∀ b, Fetch sha codec dld raw = .ok b → raw.validated = true) := by
  have hok : ∀ lr, GetLedger sha codec dld raw = .ok lr →
      raw.validated = true ∧ lr.validated = true := by
    intro lr h
    by_cases herr : raw.error = ""
    · by_cases hval : raw.validated = true
      · refine ⟨hval, ?_⟩
        simp [GetLedger, herr, hval] at h
        subst h
        rfl
      · have hv : raw.validated = false := by
          cases hb : raw.validated
          · rfl
          · exact absurd hb hval
        simp [GetLedger, herr, hv] at h
    · simp [GetLedger, herr] at h
  refine ⟨?_, ?_, hok, ?_⟩
  · intro herr
    exact ⟨"RPC error: " ++ raw.error, by simp [GetLedger, herr]⟩
  · intro hval
    by_cases herr : raw.error = ""
    · exact ⟨"ledger not yet validated", by simp [GetLedger, herr, hval]⟩
    · exact ⟨"RPC error: " ++ raw.error, by simp [GetLedger, herr]⟩
  · intro b hb
    simp only [Fetch] at hb
    cases hg : GetLedger sha codec dld raw with
    | error e =>
      rw [hg] at hb
      simp at hb
    | ok lr => exact (hok lr hg).1

/-- A validated one-transaction ledger response. -/
def demoRawOk : RawLedgerResult :=
  { ledgerData := "LD"
    transactions := some [.objElem none (some "01") (some "02")]
    ledgerHash := "AA"
    ledgerIndex := 5
    validated := true }

/-- The ledger result `GetLedger` produces for `demoRawOk`. -/
def demoLedgerResult : LedgerResult :=
  (GetLedger demoSha demoCodec demoDld demoRawOk).toOption.getD {}

/-- C4 witness: the error branches and the validated-success branch at
concrete envelopes. -/
theorem C4_validated_only_witness :
    (∃ e, GetLedger demoSha demoCodec demoDld { error := "boom" } = .error e) ∧
    (∃ e, GetLedger demoSha demoCodec demoDld { validated := false } = .error e) ∧
    (demoRawOk.validated = true ∧ demoLedgerResult.validated = true) :=
  ⟨(C4_validated_only demoSha demoCodec demoDld { error := "boom" }).1 (by decide),
   (C4_validated_only demoSha demoCodec demoDld { validated := false }).2.1 (by decide),
   (C4_validated_only demoSha demoCodec demoDld demoRawOk).2.2.1 demoLedgerResult
     (by decide)⟩

/-! ### Claim C6 — fallback transaction-hash derivation -/

/-- C6: for a response element that does not supply a `hash` but carries a
`tx_blob`, the stored hash decodes to exactly the first 32 bytes of SHA-512
applied to the TXN prefix `0x54584E00` followed by the raw (hex-decoded)
transaction blob.  (`GetLedger` stores the hash as an uppercase hex string;
the fetcher's worker then hex-decodes it into the emitted transaction's raw
`hash` bytes — the decode of the stored string is stated here.) -/
theorem C6_fallback_hash (sha : List Nat → List Nat) (codec : String → Option FlatTx)
    (blobHex : String) (m : Option String) (bs : List Nat)
    (hblob : hexDecode blobHex = some bs)
    (hsha : ∀ b ∈ (sha (txnHashPfx ++ bs)).take 32, b < 256) :
    hexDecode ((convertLedgerTx sha codec (.objElem none (some blobHex) m)).hash) =
      some ((sha (txnHashPfx ++ bs)).take 32) := by
  have hh : (convertLedgerTx sha codec (.objElem none (some blobHex) m)).hash =
      computeTxHash sha blobHex := by
    cases m <;> cases hc : codec blobHex <;>
      simp [convertLedgerTx, decodeTransaction, hc]
  rw [hh]
  unfold computeTxHash
  rw [hblob]
  exact hexDecode_upper_encode _ hsha

/-- C6 witness: the fallback hash at a concrete blob and SHA stand-in. -/
theorem C6_fallback_hash_witness :
    hexDecode ((convertLedgerTx demoSha demoCodec
        (.objElem none (some "01") none)).hash) =
      some ((demoSha (txnHashPfx ++ [1])).take 32) :=
  C6_fallback_hash demoSha demoCodec "01" none [1] (by decide) (by decide)

/-! ### Claim C2 — per-transaction error policy -/

theorem processLedgerTx_error (codec : String → Option FlatTx) (i : Nat)
    (tx : LedgerTransaction)
    (h : hexDecode tx.hash = none ∨ hexDecode tx.txBlob = none ∨
      hexDecode tx.meta = none) :
    ∃ e, processLedgerTx codec i tx = .error e := by
  rcases h with h | h | h
  · exact ⟨"decoding tx hash at index " ++ toString i,
      by simp [processLedgerTx, h]⟩
  · cases hh : hexDecode tx.hash with
    | none => exact ⟨"decoding tx hash at index " ++ toString i,
        by simp [processLedgerTx, hh]⟩
    | some v => exact ⟨"decoding tx blob at index " ++ toString i,
        by simp [processLedgerTx, hh, h]⟩
  · cases hh : hexDecode tx.hash with
    | none => exact ⟨"decoding tx hash at index " ++ toString i,
        by simp [processLedgerTx, hh]⟩
    | some v =>
      cases hb : hexDecode tx.txBlob with
      | none => exact ⟨"decoding tx blob at index " ++ toString i,
          by simp [processLedgerTx, hh, hb]⟩
      | some w => exact ⟨"decoding meta blob at index " ++ toString i,
          by simp [processLedgerTx, hh, hb, h]⟩

theorem processLedgerTx_ok (codec : String → Option FlatTx) (i : Nat)
    (tx : LedgerTransaction)
    (h1 : (hexDecode tx.hash).isSome) (h2 : (hexDecode tx.txBlob).isSome)
    (h3 : (hexDecode tx.meta).isSome) :
    processLedgerTx codec i tx = .ok (mapOutcome codec i tx) := by
  obtain ⟨a, ha⟩ := Option.isSome_iff_exists.mp h1
  obtain ⟨b, hb⟩ := Option.isSome_iff_exists.mp h2
  obtain ⟨c, hc⟩ := Option.isSome_iff_exists.mp h3
  cases hd : decoderMapTransactionToProto codec b c a i with
  | error e => simp [processLedgerTx, mapOutcome, ha, hb, hc, hd, Except.toOption]
  | ok t => simp [processLedgerTx, mapOutcome, ha, hb, hc, hd, Except.toOption]

theorem buildTxAux_error (codec : String → Option FlatTx)
    (txs : List LedgerTransaction) : ∀ start : Nat,
    (∃ tx ∈ txs, hexDecode tx.hash = none ∨ hexDecode tx.txBlob = none ∨
      hexDecode tx.meta = none) →
    ∃ e, buildTxAux codec start txs = .error e := by
  induction txs with
  | nil =>
    intro start h
    rcases h with ⟨tx, htx, _⟩
    cases htx
  | cons tx rest ih =>
    intro start h
    rcases h with ⟨t, ht, hbad⟩
    rcases List.mem_cons.mp ht with rfl | hmem
    · obtain ⟨e, he⟩ := processLedgerTx_error codec start t hbad
      exact ⟨e, by simp [buildTxAux, he]⟩
    · cases hp : processLedgerTx codec start tx with
      | error e => exact ⟨e, by simp [buildTxAux, hp]⟩
      | ok o =>
        obtain ⟨e, he⟩ := ih (start + 1) ⟨t, hmem, hbad⟩
        exact ⟨e, by simp [buildTxAux, hp, he]⟩

theorem buildTxAux_ok (codec : String → Option FlatTx)
    (txs : List LedgerTransaction) : ∀ start : Nat,
    (∀ tx ∈ txs, (hexDecode tx.hash).isSome ∧ (hexDecode tx.txBlob).isSome ∧
      (hexDecode tx.meta).isSome) →
    buildTxAux codec start txs = .ok (expectedTxs codec start txs) := by
  induction txs with
  | nil => intro start _; rfl
  | cons tx rest ih =>
    intro start h
    have hh := h tx (List.mem_cons_self tx rest)
    have hp := processLedgerTx_ok codec start tx hh.1 hh.2.1 hh.2.2
    have hr := ih (start + 1) (fun x hx => h x (List.mem_cons_of_mem _ hx))
    cases ho : mapOutcome codec start tx with
    | some t => simp [buildTxAux, expectedTxs, hp, hr, ho]
    | none => simp [buildTxAux, expectedTxs, hp, hr, ho]

/-- C2: in the per-transaction stage, a hex-decode failure of any
transaction's hash, blob or meta fails the whole stage (no block), while —
with all hex fields decodable — mapping failures only drop the individual
transaction and every successfully mapped transaction is emitted in
order. -/
theorem C2_error_policy (codec : String → Option FlatTx)
    (txs : List LedgerTransaction) :
    ((∃ tx ∈ txs, hexDecode tx.hash = none ∨ hexDecode tx.txBlob = none ∨
        hexDecode tx.meta = none) →
      ∃ e, buildTransactions codec txs = .error e) ∧
    ((∀ tx ∈ txs, (hexDecode tx.hash).isSome ∧ (hexDecode tx.txBlob).isSome ∧
        (hexDecode tx.meta).isSome) →
      buildTransactions codec txs = .ok (expectedTxs codec 0 txs)) :=
  ⟨fun h => buildTxAux_error codec txs 0 h,
   fun h => buildTxAux_ok codec txs 0 h⟩

/-- A transaction whose `hash` is not valid hex. -/
def demoBadTx : LedgerTransaction := { hash := "zz", txBlob := "01", meta := "02" }

/-- Two transactions of which the first fails mapping (its blob decodes to
an attribute mapping without a `TransactionType`) and the second maps. -/
def demoDropTxs : List LedgerTransaction :=
  [{ hash := "00", txBlob := "03", meta := "02" },
   { hash := "00", txBlob := "01", meta := "02" }]

/-- C2 witness: a hex failure fails the stage; a mapping failure only drops
the one transaction. -/
theorem C2_error_policy_witness :
    (∃ e, buildTransactions demoCodec [demoBadTx] = .error e) ∧
    buildTransactions demoCodec demoDropTxs =
      .ok (expectedTxs demoCodec 0 demoDropTxs) :=
  ⟨(C2_error_policy demoCodec [demoBadTx]).1 (by decide),
   (C2_error_policy demoCodec demoDropTxs).2 (by decide)⟩

/-! ### Claim C1 — positional transaction indices -/

theorem decoderMap_index (codec : String → Option FlatTx)
    (b m h : List Nat) (i : Nat) (t : Transaction)
    (hok : decoderMapTransactionToProto codec b m h i = .ok t) : t.index = i := by
  unfold decoderMapTransactionToProto mapperMapTransactionToProto at hok
  split at hok
  · simp at hok
  · split at hok
    · simp at hok
    · split at hok
      · simp at hok
      · simp at hok
        subst hok
        rfl

theorem processLedgerTx_some_index (codec : String → Option FlatTx) (i : Nat)
    (tx : LedgerTransaction) (t : Transaction)
    (h : processLedgerTx codec i tx = .ok (some t)) : t.index = i := by
  unfold processLedgerTx at h
  split at h
  · simp at h
  · split at h
    · simp at h
    · split at h
      · simp at h
      · split at h
        · simp at h
        · rename_i txHash hhash txBlob hblob metaBlob hmeta t2 hmap
          simp at h
          subst h
          exact decoderMap_index codec _ _ _ i t2 hmap

theorem buildTxAux_length (codec : String → Option FlatTx)
    (txs : List LedgerTransaction) : ∀ (start : Nat) (l : List Transaction),
    buildTxAux codec start txs = .ok l → l.length ≤ txs.length := by
  induction txs with
  | nil =>
    intro start l h
    simp [buildTxAux] at h
    simp [← h]
  | cons tx rest ih =>
    intro start l h
    unfold buildTxAux at h
    cases hp : processLedgerTx codec start tx with
    | error e => rw [hp] at h; simp at h
    | ok o =>
      rw [hp] at h
      cases hr : buildTxAux codec (start + 1) rest with
      | error e => rw [hr] at h; simp at h
      | ok l2 =>
        rw [hr] at h
        have hlen := ih (start + 1) l2 hr
        cases o with
        | some t =>
          simp at h
          rw [← h]
          simp
          omega
        | none =>
          simp at h
          rw [← h]
          simp
          omega

theorem buildTxAux_indices (codec : String → Option FlatTx)
    (txs : List LedgerTransaction) : ∀ (start : Nat) (l : List Transaction),
    buildTxAux codec start txs = .ok l → l.length = txs.length →
    l.map Transaction.index = List.range' start txs.length := by
  induction txs with
  | nil =>
    intro start l h _
    simp [buildTxAux] at h
    simp [← h, List.range']
  | cons tx rest ih =>
    intro start l h hlen
    unfold buildTxAux at h
    cases hp : processLedgerTx codec start tx with
    | error e => rw [hp] at h; simp at h
    | ok o =>
      rw [hp] at h
      cases hr : buildTxAux codec (start + 1) rest with
      | error e => rw [hr] at h; simp at h
      | ok l2 =>
        rw [hr] at h
        cases o with
        | none =>
          simp at h
          have hle := buildTxAux_length codec rest (start + 1) l2 hr
          rw [← h] at hlen
          simp at hlen
          omega
        | some t =>
          simp at h
          have hidx : t.index = start :=
            processLedgerTx_some_index codec start tx t hp
          rw [← h] at hlen ⊢
          simp at hlen
          have hrec := ih (start + 1) l2 hr hlen
          simp [List.range', hidx, hrec]

/-- C1 (amended): `block.transactions[i].index == i` holds exactly for the
fetches in which no transaction was dropped (the emitted list is as long as
the response's); each emitted transaction keeps the positional index of its
slot in the response, so after a drop the later indices exceed their
positions. -/
theorem C1_positional_indices (codec : String → Option FlatTx)
    (txs : List LedgerTransaction) (l : List Transaction)
    (h : buildTransactions codec txs = .ok l) (hlen : l.length = txs.length) :
    l.map Transaction.index = List.range txs.length := by
  rw [List.range_eq_range']
  exact buildTxAux_indices codec txs 0 l h hlen

/-- A validated ledger envelope whose first transaction fails mapping (the
blob `0x03` decodes to an attribute mapping with no `TransactionType`) and
whose second maps fine. -/
def demoRawDrop : RawLedgerResult :=
  { ledgerData := "LD"
    transactions := some
      [.objElem none (some "03") (some "02"), .objElem none (some "01") (some "02")]
    ledgerHash := "AA"
    ledgerIndex := 5
    validated := true }

/-- C1 (counterexample): a block emitted from a ledger in which the first
transaction was dropped carries one transaction whose `index` is 1 — at
position 0 — so `block.transactions[0].index ≠ 0`: the claim fails for
ledgers with drops. -/
theorem C1_counterexample :
    (Fetch demoSha demoCodec demoDld demoRawDrop).map
        (fun b => b.payload.transactions.map Transaction.index) = .ok [1] ∧
    [1] ≠ List.range 1 := by decide

/-- Two transactions that both map successfully. -/
def demoGoodTxs : List LedgerTransaction :=
  [{ hash := "00", txBlob := "01", meta := "02" },
   { hash := "00", txBlob := "01", meta := "02" }]

/-- The per-transaction stage's output on `demoGoodTxs`. -/
def demoGoodOut : List Transaction :=
  (buildTransactions demoCodec demoGoodTxs).toOption.getD []

/-- C1 witness: with no drop, the emitted indices are exactly the
positions. -/
theorem C1_positional_indices_witness :
    buildTransactions demoCodec demoGoodTxs = .ok demoGoodOut ∧
    demoGoodOut.map Transaction.index = List.range demoGoodTxs.length :=
  ⟨by decide,
   C1_positional_indices demoCodec demoGoodTxs demoGoodOut (by decide) (by decide)⟩
